import Mathlib

/-!
# Verification of the gocb management/data-access wrapper layer

This file gives a shallow embedding of the parts of the `gocb` client
library that the checked claims are about:

* the sub-document operation builders (`MutateInSpec.Insert`,
  `MutateInSpec.Increment`, `MutateInSpec.Decrement`, `Collection.lookupIn`),
* the view-query option encoder (`ViewOptions.toURLValues`),
* the bucket-manager REST operations and their HTTP status handling,
* the query-index polling loop (`WatchIndexes` / `checkIndexesActive`),
* the design-document name mangling (`ddocName`),
* the retry-strategy selection snippet shared by the managers.

Go machine integers are modelled as `Nat`/`Int` (durations in nanoseconds,
as `time.Duration` is an `int64` nanosecond count); fallible Go code
returns `Except`; `interface{}` values are modelled by the inductive
`GoValue`; `url.Values` is modelled as an association list with
`set`/`del`/`get?` operations matching the semantics of the Go map.
-/

/-- Errors produced by the wrapper layer.  The Go code uses one struct type
per error kind (`invalidArgumentsError`, `bucketManagerError`, ...), all
defined in repository files outside the provided sources; each constructor
here carries exactly the fields those structs populate at the use sites in
the provided sources. -/
inductive GocbError where
  | invalidArgumentsError (message : String)
  | bucketManagerError (message : String) (statusCode : Nat)
  | userManagerError (message : String) (statusCode : Nat)
  | viewIndexError (message : String) (statusCode : Nat) (indexMissing : Bool)
  | queryIndexError (message : String) (statusCode : Nat) (indexMissing : Bool)
  | timeoutError
  | jsonDecodeError (message : String)
  | goError (message : String)
  deriving DecidableEq, Repr

/-- Errors surfaced by the embedded engine's `DoHttpRequest`
(`context.DeadlineExceeded` is special-cased by every caller). -/
inductive EngineError where
  | deadlineExceeded
  | other (message : String)
  deriving DecidableEq, Repr

/-- A Go `interface{}` value, as far as the claims need to distinguish
values: a value implementing the `MutationMacro` interface (the type switch
`val.(MutationMacro)` succeeds on it), an ordinary value together with the
JSON text it encodes to, or a value the JSON encoder rejects. -/
inductive GoValue where
  | mutMacro (m : String)
  | jsonValue (s : String)
  | intVal (i : Int)
  | unencodable
  deriving DecidableEq, Repr

/-- The type switch `_, ok := val.(MutationMacro)` from the builders. -/
def isMutationMacroVal : GoValue → Bool
  | .mutMacro _ => true
  | _ => false

/-- Modelled from the spec: the `SubdocFlag` bit constants
(`SubdocFlagCreatePath`, `SubdocFlagXattr`, `SubdocFlagUseMacros`,
`SubdocFlagNone`) are defined in repository files outside the provided
sources as aliases of the engine's wire flags; the claims need only that
they are distinct single bits combined with `|=`. -/
def SubdocFlagNone : Nat := 0

/-- Modelled from the spec: the create-path sub-document flag bit. -/
def SubdocFlagCreatePath : Nat := 1

/-- Modelled from the spec: the xattr sub-document flag bit. -/
def SubdocFlagXattr : Nat := 4

/-- Modelled from the spec: the expand-macros sub-document flag bit. -/
def SubdocFlagUseMacros : Nat := 16

/-- Sub-document opcodes (`gocbcore.SubDocOpType`); only the opcodes used
by the embedded builders are listed. -/
inductive SubDocOpType where
  | get
  | getCount
  | getDoc
  | existsOp
  | dictAdd
  | dictSet
  | setDoc
  | replace
  | delete
  | deleteDoc
  | arrayPushLast
  | arrayPushFirst
  | arrayInsert
  | arrayAddUnique
  | counter
  deriving DecidableEq, Repr

/-- A sub-document operation.  This merges the repository's `subDocOp`
(used by the mutation builders, `Value interface{}`) with
`gocbcore.SubDocOp` (used by the lookup builders): the fields are the
union of both, with `value` of the modelled `interface{}` type. -/
structure subDocOp where
  op : SubDocOpType
  flags : Nat
  path : String
  value : Option GoValue
  multiValue : Bool
  deriving DecidableEq, Repr

/-- `MutateInSpec` provides a way to create `MutateInOp`s (empty struct in
the source; the builder methods below are its methods). -/
structure MutateInSpec where
  deriving DecidableEq, Repr

/-- `MutateInOp` is the representation of an operation available when
calling `MutateIn`. -/
structure MutateInOp where
  op : subDocOp
  deriving DecidableEq, Repr

/-- `MutateInSpecInsertOptions` (a `nil` options pointer in Go is modelled
by the zero value, which is what the source substitutes for it). -/
structure MutateInSpecInsertOptions where
  createPath : Bool
  isXattr : Bool
  deriving DecidableEq, Repr

/-- `MutateInSpec.Insert` inserts a value at the specified path within the
document.  The Go method mutates `opts.IsXattr` to `true` when `val` is a
`MutationMacro` before testing it; here that is the local `isXattr`. -/
def MutateInSpec.Insert (path : String) (val : GoValue)
    (opts : MutateInSpecInsertOptions) : MutateInOp :=
  let useMacros := isMutationMacroVal val
  let isXattr := opts.isXattr || useMacros
  let flags := SubdocFlagNone
  let flags := if useMacros then flags ||| SubdocFlagUseMacros else flags
  let flags := if opts.createPath then flags ||| SubdocFlagCreatePath else flags
  let flags := if isXattr then flags ||| SubdocFlagXattr else flags
  { op := { op := .dictAdd, path := path, flags := flags,
            value := some val, multiValue := false } }

/-- `MutateInSpecCounterOptions`, used by both `Increment` and
`Decrement`. -/
structure MutateInSpecCounterOptions where
  createPath : Bool
  isXattr : Bool
  deriving DecidableEq, Repr

/-- Two's-complement wrap of an integer into the `int64` range, used to
model Go's `int64` negation (`-delta`), which wraps at `math.MinInt64`. -/
def wrap64 (x : Int) : Int :=
  (x + 2 ^ 63) % 2 ^ 64 - 2 ^ 63

/-- Go's `int64` negation. -/
def negInt64 (x : Int) : Int :=
  wrap64 (-x)

/-- `MutateInSpec.Increment` adds an increment operation to this mutation
operation set (`Value: delta`). -/
def MutateInSpec.Increment (path : String) (delta : Int)
    (opts : MutateInSpecCounterOptions) : MutateInOp :=
  let flags := SubdocFlagNone
  let flags := if opts.createPath then flags ||| SubdocFlagCreatePath else flags
  let flags := if opts.isXattr then flags ||| SubdocFlagXattr else flags
  { op := { op := .counter, path := path, flags := flags,
            value := some (.intVal delta),
            multiValue := false } }

/-- `MutateInSpec.Decrement` adds a decrement operation to this mutation
operation set (`Value: -delta`, an `int64` negation). -/
def MutateInSpec.Decrement (path : String) (delta : Int)
    (opts : MutateInSpecCounterOptions) : MutateInOp :=
  let flags := SubdocFlagNone
  let flags := if opts.createPath then flags ||| SubdocFlagCreatePath else flags
  let flags := if opts.isXattr then flags ||| SubdocFlagXattr else flags
  { op := { op := .counter, path := path, flags := flags,
            value := some (.intVal (negInt64 delta)),
            multiValue := false } }

/-- C7: for every path, value and options, `MutateInSpec.Insert` returns a
sub-document operation whose opcode is dictionary-add, whose path and value
equal the arguments, and whose flags contain the create-path flag iff
`opts.CreatePath` is set, the xattr flag iff `opts.IsXattr` is set or the
value is a `MutationMacro`, and the use-macros flag iff the value is a
`MutationMacro`. -/
theorem mutateInInsert_C7 (path : String) (val : GoValue)
    (opts : MutateInSpecInsertOptions) :
    (MutateInSpec.Insert path val opts).op.op = .dictAdd ∧
    (MutateInSpec.Insert path val opts).op.path = path ∧
    (MutateInSpec.Insert path val opts).op.value = some val ∧
    ((MutateInSpec.Insert path val opts).op.flags &&& SubdocFlagCreatePath ≠ 0
      ↔ opts.createPath = true) ∧
    ((MutateInSpec.Insert path val opts).op.flags &&& SubdocFlagXattr ≠ 0
      ↔ (opts.isXattr = true ∨ isMutationMacroVal val = true)) ∧
    ((MutateInSpec.Insert path val opts).op.flags &&& SubdocFlagUseMacros ≠ 0
      ↔ isMutationMacroVal val = true) := by
  obtain ⟨cp, ix⟩ := opts
  cases cp <;> cases ix <;> cases val <;>
    simp [MutateInSpec.Insert, isMutationMacroVal, SubdocFlagNone,
      SubdocFlagCreatePath, SubdocFlagXattr, SubdocFlagUseMacros] <;> decide

/-- C10: for every path, delta and options, `MutateInSpec.Decrement`
constructs exactly the same sub-document operation as
`MutateInSpec.Increment` at the `int64`-negated delta: a counter op at the
same path whose value is the (`int64`) negation of delta and whose flags
are identical. -/
theorem incrementDecrement_C10 (path : String) (delta : Int)
    (opts : MutateInSpecCounterOptions) :
    MutateInSpec.Decrement path delta opts
      = MutateInSpec.Increment path (negInt64 delta) opts ∧
    (MutateInSpec.Decrement path delta opts).op.op = .counter ∧
    (MutateInSpec.Decrement path delta opts).op.path = path ∧
    (MutateInSpec.Decrement path delta opts).op.value
      = some (.intVal (negInt64 delta)) ∧
    (MutateInSpec.Decrement path delta opts).op.flags
      = (MutateInSpec.Increment path (negInt64 delta) opts).op.flags := by
  refine ⟨rfl, rfl, rfl, rfl, rfl⟩

/-- A user-supplied `RetryStrategy` (an interface in Go, opaque to this
layer); the tag distinguishes distinct strategies. -/
structure RetryStrategy where
  tag : Nat
  deriving DecidableEq, Repr

/-- The engine-facing wrapper around a `RetryStrategy` (`nil` wrapped is
`none`). -/
structure retryStrategyWrapper where
  wrapped : Option RetryStrategy
  deriving DecidableEq, Repr

/-- Modelled from the spec: `newRetryStrategyWrapper` is defined in a
repository file outside the provided sources; per the claim that requests
carry "a wrapper of that supplied strategy", it wraps its argument in a
`retryStrategyWrapper`. -/
def newRetryStrategyWrapper (strategy : Option RetryStrategy) :
    retryStrategyWrapper :=
  { wrapped := strategy }

/-- The retry-strategy selection in `(*BucketManager).GetBucket`:
`retryStrategy := bm.defaultRetryStrategy` followed by
`if opts.RetryStrategy == nil { retryStrategy = newRetryStrategyWrapper(opts.RetryStrategy) }`;
the result is the `RetryStrategy` field of the dispatched
`gocbcore.HttpRequest`. -/
def GetBucket_retryStrategy (bmDefault : retryStrategyWrapper)
    (optsRetryStrategy : Option RetryStrategy) : retryStrategyWrapper :=
  let retryStrategy := bmDefault
  if optsRetryStrategy = none then newRetryStrategyWrapper optsRetryStrategy
  else retryStrategy

/-- The identical retry-strategy selection in
`(*UserManager).GetAllUsers`. -/
def GetAllUsers_retryStrategy (umDefault : retryStrategyWrapper)
    (optsRetryStrategy : Option RetryStrategy) : retryStrategyWrapper :=
  let retryStrategy := umDefault
  if optsRetryStrategy = none then newRetryStrategyWrapper optsRetryStrategy
  else retryStrategy

/-- The identical retry-strategy selection in
`(*ViewIndexManager).getDesignDocument`. -/
def getDesignDocument_retryStrategy (vmDefault : retryStrategyWrapper)
    (optsRetryStrategy : Option RetryStrategy) : retryStrategyWrapper :=
  let retryStrategy := vmDefault
  if optsRetryStrategy = none then newRetryStrategyWrapper optsRetryStrategy
  else retryStrategy

/-- C2: the nil-check in the retry-strategy selection is inverted, so the
dispatched request carries the manager's default wrapper exactly when the
caller DID supply a strategy, and a wrapper of `nil` when the caller
supplied none; in particular a supplied strategy `s` is never wrapped into
the request (the claim's predicted wrapper of `s` differs from what the
code produces). -/
theorem retryStrategySelection_C2_bug (d : retryStrategyWrapper)
    (s : RetryStrategy) :
    GetBucket_retryStrategy d (some s) = d ∧
    GetBucket_retryStrategy d none = newRetryStrategyWrapper none ∧
    GetAllUsers_retryStrategy d (some s) = d ∧
    GetAllUsers_retryStrategy d none = newRetryStrategyWrapper none ∧
    getDesignDocument_retryStrategy d (some s) = d ∧
    getDesignDocument_retryStrategy d none = newRetryStrategyWrapper none ∧
    GetBucket_retryStrategy { wrapped := none } (some s)
      ≠ newRetryStrategyWrapper (some s) := by
  refine ⟨rfl, rfl, rfl, rfl, rfl, rfl, ?_⟩
  simp [GetBucket_retryStrategy, newRetryStrategyWrapper]

/-- The initial poll interval of `WatchIndexes`:
`curInterval := 50 * time.Millisecond` (nanoseconds). -/
def watchInitialInterval : Nat := 50 * 1000000

/-- The per-iteration interval update of `WatchIndexes`:
`curInterval += 500 * time.Millisecond; if curInterval > 1000 { curInterval = 1000 }`.
`curInterval` is a `time.Duration`, a count of nanoseconds, so the literal
`1000` is 1000 nanoseconds. -/
def nextPollInterval (curInterval : Nat) : Nat :=
  let curInterval := curInterval + 500 * 1000000
  if curInterval > 1000 then 1000 else curInterval

/-- C1: the interval update caps at the untyped literal `1000`, i.e. 1000
NANOSECONDS: every interval actually slept is exactly 1000ns (far below
the intended one-second cap), and the very first update DECREASES the
interval from its 50ms start, so the sleep sequence is not the claimed
non-decreasing backoff from 50ms. -/
theorem watchPollInterval_C1_bug :
    (∀ curInterval : Nat, nextPollInterval curInterval = 1000) ∧
    nextPollInterval watchInitialInterval < watchInitialInterval ∧
    nextPollInterval watchInitialInterval = 1000 := by
  refine ⟨fun curInterval => ?_, by decide, by decide⟩
  simp only [nextPollInterval]
  rw [if_pos (by omega)]

/-- Go's `strings.HasPrefix` on the underlying character lists. -/
def hasPrefixChars : List Char → List Char → Bool
  | _, [] => true
  | [], _ :: _ => false
  | c :: cs, p :: ps => c == p && hasPrefixChars cs ps

/-- Go's `strings.HasPrefix s pre`. -/
def goStringHasPrefix (s pre : String) : Bool :=
  hasPrefixChars s.toList pre.toList

/-- Go's `strings.TrimLeft(s, cutset)`: removes the maximal run of LEADING
CHARACTERS each of which occurs in `cutset` (a character set, not a
prefix). -/
def goStringTrimLeft (s cutset : String) : String :=
  String.mk (s.toList.dropWhile (fun c => cutset.toList.contains c))

/-- `(*ViewIndexManager).ddocName`: maps a design-document name into the
production namespace (`isProd = true`, strips `dev_` via
`strings.TrimLeft`) or the development namespace (`isProd = false`,
prepends `dev_` unless already present). -/
def ddocName (name : String) (isProd : Bool) : String :=
  if isProd then
    if goStringHasPrefix name "dev_" then goStringTrimLeft name "dev_"
    else name
  else
    if !goStringHasPrefix name "dev_" then "dev_" ++ name
    else name

/-- C8: `ddocName` uses `strings.TrimLeft` with cutset `"dev_"`, which
strips ALL leading characters drawn from {d,e,v,_}, not one `dev_` prefix:
`ddocName "dev_example" true` gives `"xample"`, not `"example"`, and the
development/production round trip on `"example"` (the name under which
`PublishDesignDocument` fetches and republishes) gives `"xample"` as well;
`"dev_dev_x"` loses both prefixes at once. -/
theorem ddocName_C8_bug :
    ddocName "dev_example" true = "xample" ∧
    ddocName "example" false = "dev_example" ∧
    ddocName (ddocName "example" false) true = "xample" ∧
    ddocName "dev_dev_x" true = "x" ∧
    "xample" ≠ "example" := by
  refine ⟨by decide, by decide, by decide, by decide, by decide⟩

/-- `LookupInOp` is the representation of an operation available when
calling `LookupIn` (it wraps a `gocbcore.SubDocOp`). -/
structure LookupInOp where
  op : subDocOp
  deriving DecidableEq, Repr

/-- `LookupInOptions`; of its fields only `WithExpiry` affects which
sub-document ops are dispatched (`Context`/`Timeout`/`Serializer` govern
cancellation and row decoding). -/
structure LookupInOptions where
  withExpiry : Bool
  deriving DecidableEq, Repr

/-- The xattr expiry-get op `(*Collection).lookupIn` prepends when
`opts.WithExpiry` is set. -/
def expiryGetOp : subDocOp :=
  { op := .get, path := "$document.exptime", flags := SubdocFlagXattr,
    value := none, multiValue := false }

/-- The request-building part of `(*Collection).lookupIn`: collects the
ops' `gocbcore.SubDocOp`s, prepends the expiry-get when `WithExpiry`, and
rejects more than 16 caller ops.  The returned list is the `Ops` field of
the `gocbcore.LookupInOptions` handed to the kv provider's `LookupInEx`;
the length check precedes that dispatch, so an error means no request is
dispatched. -/
def lookupIn (ops : List LookupInOp) (opts : LookupInOptions) :
    Except GocbError (List subDocOp) :=
  let subdocs := ops.map (fun op => op.op)
  let subdocs := if opts.withExpiry then expiryGetOp :: subdocs else subdocs
  if ops.length > 16 then
    .error (.goError "too many lookupIn ops specified, maximum 16")
  else
    .ok subdocs

/-- C9: `lookupIn` errors (and so dispatches nothing) whenever more than
16 ops are supplied; with at most 16 ops the dispatched request holds
exactly the given ops in order, preceded by one xattr expiry-get op iff
`opts.WithExpiry` is set, for at most 17 dispatched sub-document ops. -/
theorem lookupIn_C9 (ops : List LookupInOp) (opts : LookupInOptions) :
    (ops.length > 16 →
      lookupIn ops opts
        = .error (.goError "too many lookupIn ops specified, maximum 16")) ∧
    (ops.length ≤ 16 →
      lookupIn ops opts
        = .ok ((if opts.withExpiry then [expiryGetOp] else [])
            ++ ops.map (fun op => op.op))) ∧
    (∀ dispatched, lookupIn ops opts = .ok dispatched →
      dispatched.length ≤ 17) := by
  refine ⟨fun h => ?_, fun h => ?_, fun dispatched h => ?_⟩
  · simp [lookupIn, h]
  · simp only [lookupIn, if_neg (by omega : ¬ ops.length > 16)]
    cases opts.withExpiry <;> simp
  · simp only [lookupIn] at h
    by_cases hlen : ops.length > 16
    · simp [hlen] at h
    · rw [if_neg hlen] at h
      cases hwe : opts.withExpiry <;> rw [hwe] at h <;>
        simp only [Except.ok.injEq] at h <;> subst h <;>
        simp <;> omega

/-- A concrete lookup op used by the C9 witness. -/
def sampleLookupOp : LookupInOp :=
  { op := { op := .get, path := "foo", flags := 0,
            value := none, multiValue := false } }

/-- C9 witness: 17 ops are rejected; 1 op with `WithExpiry` dispatches the
expiry-get followed by the op. -/
theorem lookupIn_C9_witness :
    lookupIn (List.replicate 17 sampleLookupOp) { withExpiry := false }
      = .error (.goError "too many lookupIn ops specified, maximum 16") ∧
    lookupIn [sampleLookupOp] { withExpiry := true }
      = .ok [expiryGetOp, sampleLookupOp.op] := by
  refine ⟨(lookupIn_C9 (List.replicate 17 sampleLookupOp)
    { withExpiry := false }).1 (by decide), ?_⟩
  have h := (lookupIn_C9 [sampleLookupOp] { withExpiry := true }).2.1
    (by decide)
  simpa using h

/-- `url.Values`, modelled as an association list.  Go's `Set` replaces
the key's entry and `Del` removes it; ordering of the underlying map is
irrelevant to `Get`, which this model reads through `get?`. -/
abbrev Values := List (String × String)

/-- `url.Values.Del`. -/
def Values.del (vs : Values) (k : String) : Values :=
  vs.filter (fun p => p.1 != k)

/-- `url.Values.Set`: replaces any existing entry for the key. -/
def Values.set (vs : Values) (k v : String) : Values :=
  Values.del vs k ++ [(k, v)]

/-- `url.Values.Add`: appends an entry for the key. -/
def Values.add (vs : Values) (k v : String) : Values :=
  vs ++ [(k, v)]

/-- `url.Values.Get`: the first value stored for the key, if any. -/
def Values.get? (vs : Values) (k : String) : Option String :=
  (vs.find? (fun p => p.1 == k)).map (fun p => p.2)

/-- An HTTP response from the engine (`ioutil.ReadAll` on the body is
modelled as the pure `body` string). -/
structure HttpResponse where
  statusCode : Nat
  body : String
  deriving DecidableEq, Repr

/-- The error mapping every manager applies to a failed `DoHttpRequest`:
`context.DeadlineExceeded` becomes a `timeoutError`, anything else is
returned unchanged (as an engine error). -/
def engineErrToGocb : EngineError → GocbError
  | .deadlineExceeded => .timeoutError
  | .other m => .goError m

/-- The Go `BucketType` string constant `CouchbaseBucketType`. -/
def CouchbaseBucketType : String := "membase"

/-- The Go `BucketType` string constant `MemcachedBucketType`. -/
def MemcachedBucketType : String := "memcached"

/-- The Go `BucketType` string constant `EphemeralBucketType`. -/
def EphemeralBucketType : String := "ephemeral"

/-- `BucketSettings` (management variant from the `BucketManager` file):
the string-typed enums (`BucketType`, `EvictionPolicyType`,
`CompressionMode`) are modelled as their underlying strings. -/
structure BucketSettings where
  name : String
  flushEnabled : Bool
  replicaIndexDisabled : Bool
  ramQuotaMB : Int
  numReplicas : Int
  bucketType : String
  evictionPolicy : String
  maxTTL : Int
  compressionMode : String
  deriving DecidableEq, Repr

/-- `CreateBucketSettings`: `BucketSettings` plus a conflict-resolution
type. -/
structure CreateBucketSettings where
  bucketSettings : BucketSettings
  conflictResolutionType : String
  deriving DecidableEq, Repr

/-- `(*BucketManager).settingsToPostData`: validates the settings and
encodes them as form values (`url.Values.Add` calls in source order). -/
def settingsToPostData (settings : BucketSettings) :
    Except GocbError Values :=
  if settings.name = "" then
    .error (.invalidArgumentsError "Name invalid, must be set.")
  else if settings.ramQuotaMB < 100 then
    .error (.invalidArgumentsError
      "Memory quota invalid, must be greater than 100MB")
  else
    let posts : Values := []
    let posts := posts.add "name" settings.name
    let posts := posts.add "flushEnabled"
      (if settings.flushEnabled then "1" else "0")
    let posts := posts.add "replicaIndex"
      (if settings.replicaIndexDisabled then "0" else "1")
    let typed : Except GocbError Values :=
      if settings.bucketType = CouchbaseBucketType then
        .ok ((posts.add "bucketType" settings.bucketType).add
          "replicaNumber" (toString settings.numReplicas))
      else if settings.bucketType = MemcachedBucketType then
        if settings.numReplicas > 0 then
          .error (.invalidArgumentsError
            "replicas cannot be used with memcached buckets")
        else .ok (posts.add "bucketType" settings.bucketType)
      else if settings.bucketType = EphemeralBucketType then
        .ok ((posts.add "bucketType" settings.bucketType).add
          "replicaNumber" (toString settings.numReplicas))
      else .error (.invalidArgumentsError "Unrecognized bucket type")
    typed.map (fun posts =>
      let posts := posts.add "ramQuotaMB" (toString settings.ramQuotaMB)
      let posts := if settings.evictionPolicy ≠ "" then
        posts.add "evictionPolicy" settings.evictionPolicy else posts
      let posts := if settings.maxTTL > 0 then
        posts.add "maxTTL" (toString settings.maxTTL) else posts
      let posts := if settings.compressionMode ≠ "" then
        posts.add "compressionMode" settings.compressionMode else posts
      posts)

/-- `(*BucketManager).get` (the body of `GetBucket` after dispatch):
`dispatchResult` is what `DoHttpRequest` returned; `decodeBucketData`
stands for `json.Decoder.Decode` into `bucketDataIn` followed by the pure
`bucketDataInToSettings` (`none` is a JSON decode failure). -/
def BucketManager_get (dispatchResult : Except EngineError HttpResponse)
    (decodeBucketData : String → Option BucketSettings) :
    Except GocbError BucketSettings :=
  match dispatchResult with
  | .error e => .error (engineErrToGocb e)
  | .ok resp =>
    if resp.statusCode ≠ 200 then
      .error (.bucketManagerError resp.body resp.statusCode)
    else
      match decodeBucketData resp.body with
      | none => .error (.jsonDecodeError resp.body)
      | some settings => .ok settings

/-- `(*BucketManager).GetAllBuckets` after dispatch; the decoded result is
the name-to-settings map built from the response body. -/
def BucketManager_GetAllBuckets
    (dispatchResult : Except EngineError HttpResponse)
    (decodeBucketList : String → Option (List (String × BucketSettings))) :
    Except GocbError (List (String × BucketSettings)) :=
  match dispatchResult with
  | .error e => .error (engineErrToGocb e)
  | .ok resp =>
    if resp.statusCode ≠ 200 then
      .error (.bucketManagerError resp.body resp.statusCode)
    else
      match decodeBucketList resp.body with
      | none => .error (.jsonDecodeError resp.body)
      | some buckets => .ok buckets

/-- `(*BucketManager).CreateBucket`: encodes the settings (an encoding
failure returns before any dispatch), then checks the response against the
202 success code. -/
def BucketManager_CreateBucket (settings : CreateBucketSettings)
    (dispatchResult : Except EngineError HttpResponse) :
    Except GocbError Unit :=
  match settingsToPostData settings.bucketSettings with
  | .error e => .error e
  | .ok posts =>
    let _requestBody : Values :=
      if settings.conflictResolutionType ≠ "" then
        posts.add "conflictResolutionType" settings.conflictResolutionType
      else posts
    match dispatchResult with
    | .error e => .error (engineErrToGocb e)
    | .ok resp =>
      if resp.statusCode ≠ 202 then
        .error (.bucketManagerError resp.body resp.statusCode)
      else .ok ()

/-- `(*BucketManager).UpdateBucket`: encodes the settings, then checks the
response against the 200 success code. -/
def BucketManager_UpdateBucket (settings : BucketSettings)
    (dispatchResult : Except EngineError HttpResponse) :
    Except GocbError Unit :=
  match settingsToPostData settings with
  | .error e => .error e
  | .ok _posts =>
    match dispatchResult with
    | .error e => .error (engineErrToGocb e)
    | .ok resp =>
      if resp.statusCode ≠ 200 then
        .error (.bucketManagerError resp.body resp.statusCode)
      else .ok ()

/-- `(*BucketManager).DropBucket` after dispatch (success code 200). -/
def BucketManager_DropBucket
    (dispatchResult : Except EngineError HttpResponse) :
    Except GocbError Unit :=
  match dispatchResult with
  | .error e => .error (engineErrToGocb e)
  | .ok resp =>
    if resp.statusCode ≠ 200 then
      .error (.bucketManagerError resp.body resp.statusCode)
    else .ok ()

/-- `(*BucketManager).FlushBucket` after dispatch (success code 200). -/
def BucketManager_FlushBucket
    (dispatchResult : Except EngineError HttpResponse) :
    Except GocbError Unit :=
  match dispatchResult with
  | .error e => .error (engineErrToGocb e)
  | .ok resp =>
    if resp.statusCode ≠ 200 then
      .error (.bucketManagerError resp.body resp.statusCode)
    else .ok ()

/-- C3: every BucketManager operation returns a `bucketManagerError`
carrying the response status code and the response body as its message
exactly when the engine returned a response whose status differs from the
operation's success code (200 for `GetBucket`, `GetAllBuckets`,
`UpdateBucket`, `DropBucket`, `FlushBucket`; 202 for `CreateBucket`); on
the success code (or when the engine fails without a response) no
`bucketManagerError` is returned. -/
theorem bucketManager_statusErrors_C3
    (settingsC : CreateBucketSettings) (settingsU : BucketSettings)
    (postsC postsU : Values)
    (hC : settingsToPostData settingsC.bucketSettings = .ok postsC)
    (hU : settingsToPostData settingsU = .ok postsU) :
    (∀ (dr : Except EngineError HttpResponse)
       (decode : String → Option BucketSettings),
      ((∃ m sc, BucketManager_get dr decode
          = .error (.bucketManagerError m sc))
        ↔ (∃ resp, dr = .ok resp ∧ resp.statusCode ≠ 200)) ∧
      (∀ resp, dr = .ok resp → resp.statusCode ≠ 200 →
        BucketManager_get dr decode
          = .error (.bucketManagerError resp.body resp.statusCode))) ∧
    (∀ (dr : Except EngineError HttpResponse)
       (decode : String → Option (List (String × BucketSettings))),
      ((∃ m sc, BucketManager_GetAllBuckets dr decode
          = .error (.bucketManagerError m sc))
        ↔ (∃ resp, dr = .ok resp ∧ resp.statusCode ≠ 200)) ∧
      (∀ resp, dr = .ok resp → resp.statusCode ≠ 200 →
        BucketManager_GetAllBuckets dr decode
          = .error (.bucketManagerError resp.body resp.statusCode))) ∧
    (∀ dr : Except EngineError HttpResponse,
      ((∃ m sc, BucketManager_CreateBucket settingsC dr
          = .error (.bucketManagerError m sc))
        ↔ (∃ resp, dr = .ok resp ∧ resp.statusCode ≠ 202)) ∧
      (∀ resp, dr = .ok resp → resp.statusCode ≠ 202 →
        BucketManager_CreateBucket settingsC dr
          = .error (.bucketManagerError resp.body resp.statusCode))) ∧
    (∀ dr : Except EngineError HttpResponse,
      ((∃ m sc, BucketManager_UpdateBucket settingsU dr
          = .error (.bucketManagerError m sc))
        ↔ (∃ resp, dr = .ok resp ∧ resp.statusCode ≠ 200)) ∧
      (∀ resp, dr = .ok resp → resp.statusCode ≠ 200 →
        BucketManager_UpdateBucket settingsU dr
          = .error (.bucketManagerError resp.body resp.statusCode))) ∧
    (∀ dr : Except EngineError HttpResponse,
      ((∃ m sc, BucketManager_DropBucket dr
          = .error (.bucketManagerError m sc))
        ↔ (∃ resp, dr = .ok resp ∧ resp.statusCode ≠ 200)) ∧
      (∀ resp, dr = .ok resp → resp.statusCode ≠ 200 →
        BucketManager_DropBucket dr
          = .error (.bucketManagerError resp.body resp.statusCode))) ∧
    (∀ dr : Except EngineError HttpResponse,
      ((∃ m sc, BucketManager_FlushBucket dr
          = .error (.bucketManagerError m sc))
        ↔ (∃ resp, dr = .ok resp ∧ resp.statusCode ≠ 200)) ∧
      (∀ resp, dr = .ok resp → resp.statusCode ≠ 200 →
        BucketManager_FlushBucket dr
          = .error (.bucketManagerError resp.body resp.statusCode))) := by
  refine ⟨fun dr decode => ?_, fun dr decode => ?_, fun dr => ?_,
    fun dr => ?_, fun dr => ?_, fun dr => ?_⟩
  · cases dr with
    | error e => cases e <;> simp [BucketManager_get, engineErrToGocb]
    | ok resp =>
      by_cases hs : resp.statusCode = 200
      · cases hd : decode resp.body <;> simp [BucketManager_get, hs, hd]
      · simp [BucketManager_get, hs]
  · cases dr with
    | error e => cases e <;> simp [BucketManager_GetAllBuckets, engineErrToGocb]
    | ok resp =>
      by_cases hs : resp.statusCode = 200
      · cases hd : decode resp.body <;>
          simp [BucketManager_GetAllBuckets, hs, hd]
      · simp [BucketManager_GetAllBuckets, hs]
  · cases dr with
    | error e => cases e <;> simp [BucketManager_CreateBucket, hC, engineErrToGocb]
    | ok resp =>
      by_cases hs : resp.statusCode = 202
      · simp [BucketManager_CreateBucket, hC, hs]
      · simp [BucketManager_CreateBucket, hC, hs]
  · cases dr with
    | error e => cases e <;> simp [BucketManager_UpdateBucket, hU, engineErrToGocb]
    | ok resp =>
      by_cases hs : resp.statusCode = 200
      · simp [BucketManager_UpdateBucket, hU, hs]
      · simp [BucketManager_UpdateBucket, hU, hs]
  · cases dr with
    | error e => cases e <;> simp [BucketManager_DropBucket, engineErrToGocb]
    | ok resp =>
      by_cases hs : resp.statusCode = 200
      · simp [BucketManager_DropBucket, hs]
      · simp [BucketManager_DropBucket, hs]
  · cases dr with
    | error e => cases e <;> simp [BucketManager_FlushBucket, engineErrToGocb]
    | ok resp =>
      by_cases hs : resp.statusCode = 200
      · simp [BucketManager_FlushBucket, hs]
      · simp [BucketManager_FlushBucket, hs]

/-- Concrete valid bucket settings used by the C3 witness. -/
def sampleBucketSettings : BucketSettings :=
  { name := "test", flushEnabled := false, replicaIndexDisabled := false,
    ramQuotaMB := 256, numReplicas := 1, bucketType := CouchbaseBucketType,
    evictionPolicy := "", maxTTL := 0, compressionMode := "" }

/-- Concrete valid create-bucket settings used by the C3 witness. -/
def sampleCreateBucketSettings : CreateBucketSettings :=
  { bucketSettings := sampleBucketSettings, conflictResolutionType := "" }

/-- C3 witness: at valid settings, a 404 `DropBucket` response and a 500
`CreateBucket` response map to the corresponding `bucketManagerError`s,
and a 200 `GetBucket` response does not. -/
theorem bucketManager_statusErrors_C3_witness :
    BucketManager_DropBucket (.ok { statusCode := 404, body := "not found" })
      = .error (.bucketManagerError "not found" 404) ∧
    BucketManager_CreateBucket sampleCreateBucketSettings
        (.ok { statusCode := 500, body := "oops" })
      = .error (.bucketManagerError "oops" 500) ∧
    ¬ (∃ m sc, BucketManager_get (.ok { statusCode := 200, body := "x" })
        (fun _ => some sampleBucketSettings)
        = .error (.bucketManagerError m sc)) := by
  obtain ⟨P, hP⟩ : ∃ P, settingsToPostData sampleBucketSettings = .ok P :=
    ⟨_, rfl⟩
  have H := bucketManager_statusErrors_C3 sampleCreateBucketSettings
    sampleBucketSettings P P hP hP
  refine ⟨(H.2.2.2.2.1 _).2 _ rfl (by decide),
    (H.2.2.1 _).2 _ rfl (by decide), ?_⟩
  intro hex
  have := (H.1 (.ok { statusCode := 200, body := "x" })
    (fun _ => some sampleBucketSettings)).1.mp hex
  obtain ⟨resp, hresp, hne⟩ := this
  cases hresp
  exact hne rfl

/-- `QueryIndex` represents a Couchbase GSI index (`IndexType` is a string
type). -/
structure QueryIndex where
  name : String
  isPrimary : Bool
  indexType : String
  state : String
  keyspace : String
  namespaceId : String
  indexKey : List String
  deriving DecidableEq, Repr

/-- `checkIndexesActive`: gathers, for each name of `checkList`, the first
index of `indexes` with that name (the inner loop with `break`); if any
name is unmatched the lengths differ and a `queryIndexError` with
`indexMissing` set is returned; otherwise reports whether every gathered
index has `State == "online"` (the Go function returns `(bool, error)`,
embedded as `Except GocbError Bool`). -/
def checkIndexesActive (indexes : List QueryIndex)
    (checkList : List String) : Except GocbError Bool :=
  let checkIndexes := checkList.filterMap
    (fun indexName => indexes.find? (fun i => i.name == indexName))
  if checkIndexes.length ≠ checkList.length then
    .error (.queryIndexError "the index specified does not exist" 0 true)
  else if checkIndexes.all (fun i => i.state == "online") then .ok true
  else .ok false

/-- The polling loop of `WatchIndexes`.  Each element of `polls` is the
outcome of one `getAllIndexes` call; time is abstracted: exhausting
`polls` models the context deadline arriving, which makes the loop return
`timeoutError` (sleeping itself has no observable effect on the result). -/
def watchLoop (polls : List (Except GocbError (List QueryIndex)))
    (checkList : List String) : Except GocbError Unit :=
  match polls with
  | [] => .error .timeoutError
  | p :: rest =>
    match p with
    | .error e => .error e
    | .ok indexes =>
      match checkIndexesActive indexes checkList with
      | .error e => .error e
      | .ok true => .ok ()
      | .ok false => watchLoop rest checkList

/-- The watch list actually checked: `WatchIndexes` appends `"#primary"`
when `opts.WatchPrimary` is set. -/
def effectiveWatchList (watchPrimary : Bool) (watchList : List String) :
    List String :=
  if watchPrimary then watchList ++ ["#primary"] else watchList

/-- `(*QueryIndexManager).WatchIndexes`: rejects a missing
context-and-timeout pair, then polls.  `hasContext` and `timeoutNs` model
`timeout.Context == nil` and `timeout.Timeout`. -/
def WatchIndexes (hasContext : Bool) (timeoutNs : Nat) (watchPrimary : Bool)
    (watchList : List String)
    (polls : List (Except GocbError (List QueryIndex))) :
    Except GocbError Unit :=
  if hasContext = false ∧ timeoutNs = 0 then
    .error (.invalidArgumentsError
      "either a context or a timeout value must be supplied to watch")
  else
    watchLoop polls (effectiveWatchList watchPrimary watchList)

/-- A poll that makes the loop continue: it succeeded, found every watched
name, but not all of them online. -/
def pollContinues (checkList : List String)
    (p : Except GocbError (List QueryIndex)) : Prop :=
  ∃ idxs, p = .ok idxs ∧ checkIndexesActive idxs checkList = .ok false

/-- A poll that found every watched name with state online. -/
def pollAllOnline (checkList : List String)
    (p : Except GocbError (List QueryIndex)) : Prop :=
  ∃ idxs, p = .ok idxs ∧ checkIndexesActive idxs checkList = .ok true

/-- A poll that succeeded but in which some watched name is absent from
the returned index list. -/
def pollMissingIndex (checkList : List String)
    (p : Except GocbError (List QueryIndex)) : Prop :=
  ∃ idxs, p = .ok idxs ∧
    ∃ n ∈ checkList, idxs.find? (fun i => i.name == n) = none

lemma filterMap_length_lt_of_none {α β : Type} (f : α → Option β) :
    ∀ l : List α, (∃ x ∈ l, f x = none) →
      (l.filterMap f).length < l.length := by
  intro l
  induction l with
  | nil => rintro ⟨x, hx, _⟩; cases hx
  | cons a t ih =>
    rintro ⟨x, hx, hfx⟩
    rcases List.mem_cons.mp hx with rfl | hxt
    · rw [List.filterMap_cons, hfx]
      exact Nat.lt_succ_of_le (List.length_filterMap_le f t)
    · cases hfa : f a with
      | none =>
        rw [List.filterMap_cons, hfa]
        exact Nat.lt_succ_of_lt (ih ⟨x, hxt, hfx⟩)
      | some b =>
        rw [List.filterMap_cons, hfa]
        simpa using Nat.succ_lt_succ (ih ⟨x, hxt, hfx⟩)

lemma filterMap_length_eq_iff {α β : Type} (f : α → Option β) :
    ∀ l : List α,
      ((l.filterMap f).length = l.length ↔ ∀ x ∈ l, ∃ b, f x = some b) := by
  intro l
  induction l with
  | nil => simp
  | cons a t ih =>
    cases hfa : f a with
    | none =>
      rw [List.filterMap_cons, hfa]
      constructor
      · intro h
        exact absurd h
          (Nat.ne_of_lt (Nat.lt_succ_of_le (List.length_filterMap_le f t)))
      · intro h
        obtain ⟨b, hb⟩ := h a (List.mem_cons_self a t)
        rw [hfa] at hb
        cases hb
    | some b =>
      rw [List.filterMap_cons, hfa]
      simp only [List.length_cons]
      constructor
      · intro h x hx
        rcases List.mem_cons.mp hx with rfl | hxt
        · exact ⟨_, hfa⟩
        · exact (ih.mp (by omega)) x hxt
      · intro h
        have := ih.mpr (fun x hx => h x (List.mem_cons_of_mem a hx))
        omega

lemma checkIndexesActive_error_iff (indexes : List QueryIndex)
    (checkList : List String) :
    (checkIndexesActive indexes checkList
      = .error (.queryIndexError "the index specified does not exist" 0 true))
    ↔ ∃ n ∈ checkList, indexes.find? (fun i => i.name == n) = none := by
  constructor
  · intro h
    by_cases hlen : (checkList.filterMap
        (fun indexName => indexes.find?
          (fun i => i.name == indexName))).length = checkList.length
    · exfalso
      simp only [checkIndexesActive] at h
      rw [if_neg (fun hne => hne hlen)] at h
      split at h <;> simp at h
    · have hne := (not_iff_not.mpr
        (filterMap_length_eq_iff
          (fun indexName => indexes.find? (fun i => i.name == indexName))
          checkList)).mp hlen
      push_neg at hne
      obtain ⟨n, hn, hb⟩ := hne
      refine ⟨n, hn, ?_⟩
      cases hf : indexes.find? (fun i => i.name == n) with
      | none => rfl
      | some b => exact absurd hf (hb b)
  · rintro ⟨n, hn, hfind⟩
    have hlt := filterMap_length_lt_of_none
      (fun indexName => indexes.find? (fun i => i.name == indexName))
      checkList ⟨n, hn, hfind⟩
    simp only [checkIndexesActive]
    rw [if_pos (Nat.ne_of_lt hlt)]

lemma checkIndexesActive_ok_true_iff (indexes : List QueryIndex)
    (checkList : List String) :
    (checkIndexesActive indexes checkList = .ok true)
    ↔ ∀ n ∈ checkList, ∃ i,
        indexes.find? (fun x => x.name == n) = some i ∧
        i.state = "online" := by
  simp only [checkIndexesActive]
  by_cases hlen : (checkList.filterMap
      (fun indexName => indexes.find?
        (fun i => i.name == indexName))).length = checkList.length
  · rw [if_neg (fun hne => hne hlen)]
    have hmem := (filterMap_length_eq_iff
      (fun indexName => indexes.find? (fun i => i.name == indexName))
      checkList).mp hlen
    by_cases hall : (checkList.filterMap
        (fun indexName => indexes.find?
          (fun i => i.name == indexName))).all
          (fun i => i.state == "online") = true
    · rw [if_pos hall]
      simp only [List.all_eq_true, List.mem_filterMap] at hall
      constructor
      · intro _ n hn
        obtain ⟨i, hi⟩ := hmem n hn
        refine ⟨i, hi, ?_⟩
        have := hall i ⟨n, hn, hi⟩
        exact eq_of_beq this
      · intro _; rfl
    · rw [if_neg hall]
      constructor
      · intro h; cases h
      · intro h
        exfalso
        apply hall
        simp only [List.all_eq_true, List.mem_filterMap]
        rintro i ⟨n, hn, hfind⟩
        obtain ⟨j, hj, hjs⟩ := h n hn
        rw [hfind] at hj
        cases hj
        simpa using hjs
  · rw [if_pos hlen]
    constructor
    · intro h; cases h
    · intro h
      exfalso
      apply hlen
      apply (filterMap_length_eq_iff _ checkList).mpr
      intro n hn
      obtain ⟨i, hi, _⟩ := h n hn
      exact ⟨i, hi⟩

lemma watchLoop_ok_iff (polls : List (Except GocbError (List QueryIndex)))
    (checkList : List String) :
    watchLoop polls checkList = .ok ()
    ↔ ∃ pre p post, polls = pre ++ p :: post ∧
        (∀ q ∈ pre, pollContinues checkList q) ∧
        pollAllOnline checkList p := by
  induction polls with
  | nil =>
    simp only [watchLoop]
    constructor
    · intro h; cases h
    · rintro ⟨pre, p, post, heq, -, -⟩
      exact absurd heq.symm (List.append_ne_nil_of_right_ne_nil pre
        (List.cons_ne_nil p post))
  | cons p rest ih =>
    cases p with
    | error e =>
      simp only [watchLoop]
      constructor
      · intro h; cases h
      · rintro ⟨pre, p0, post, heq, hpre, idxs, hok, -⟩
        cases pre with
        | nil =>
          simp only [List.nil_append, List.cons.injEq] at heq
          rw [← heq.1] at hok
          cases hok
        | cons q pre2 =>
          simp only [List.cons_append, List.cons.injEq] at heq
          obtain ⟨idxs2, hok2, -⟩ :=
            hpre q (heq.1 ▸ List.mem_cons_self q pre2)
          rw [← heq.1] at hok2
          cases hok2
    | ok indexes =>
      cases hc : checkIndexesActive indexes checkList with
      | error e =>
        simp only [watchLoop, hc]
        constructor
        · intro h; cases h
        · rintro ⟨pre, p0, post, heq, hpre, idxs, hok, honline⟩
          cases pre with
          | nil =>
            simp only [List.nil_append, List.cons.injEq] at heq
            rw [← heq.1] at hok
            cases hok
            rw [hc] at honline
            cases honline
          | cons q pre2 =>
            simp only [List.cons_append, List.cons.injEq] at heq
            obtain ⟨idxs2, hok2, hcont2⟩ :=
              hpre q (heq.1 ▸ List.mem_cons_self q pre2)
            rw [← heq.1] at hok2
            cases hok2
            rw [hc] at hcont2
            cases hcont2
      | ok b =>
        cases b with
        | true =>
          simp only [watchLoop, hc]
          constructor
          · intro _
            exact ⟨[], .ok indexes, rest, rfl, by simp,
              indexes, rfl, hc⟩
          · intro _; trivial
        | false =>
          simp only [watchLoop, hc]
          rw [ih]
          constructor
          · rintro ⟨pre, p0, post, heq, hpre, honline⟩
            refine ⟨.ok indexes :: pre, p0, post, by rw [heq]; rfl, ?_,
              honline⟩
            intro q hq
            rcases List.mem_cons.mp hq with rfl | hq2
            · exact ⟨indexes, rfl, hc⟩
            · exact hpre q hq2
          · rintro ⟨pre, p0, post, heq, hpre, honline⟩
            cases pre with
            | nil =>
              simp only [List.nil_append, List.cons.injEq] at heq
              obtain ⟨idxs, hok, htrue⟩ := honline
              rw [← heq.1] at hok
              cases hok
              rw [hc] at htrue
              cases htrue
            | cons q pre2 =>
              simp only [List.cons_append, List.cons.injEq] at heq
              exact ⟨pre2, p0, post, heq.2,
                fun r hr => hpre r (heq.1 ▸ List.mem_cons_of_mem q hr),
                honline⟩

lemma watchLoop_missing (checkList : List String) :
    ∀ (pre : List (Except GocbError (List QueryIndex))) p post,
      (∀ q ∈ pre, pollContinues checkList q) →
      pollMissingIndex checkList p →
      watchLoop (pre ++ p :: post) checkList
        = .error (.queryIndexError "the index specified does not exist"
            0 true) := by
  intro pre
  induction pre with
  | nil =>
    rintro p post - ⟨idxs, rfl, hmiss⟩
    have hc := (checkIndexesActive_error_iff idxs checkList).mpr hmiss
    simp only [List.nil_append, watchLoop, hc]
  | cons q pre2 ih =>
    intro p post hpre hmiss
    obtain ⟨idxs, rfl, hcont⟩ := hpre q (List.mem_cons_self q pre2)
    simp only [List.cons_append, watchLoop, hcont]
    exact ih p post (fun r hr => hpre r (List.mem_cons_of_mem _ hr)) hmiss

/-- C4: with a valid timeout argument, `WatchIndexes` returns nil exactly
when some poll finds every watched index name (plus `"#primary"` when
`WatchPrimary` is set) present with state `"online"` — every earlier poll
having succeeded, found all names, but seen some not yet online; and a
poll in which some watched name is absent makes `WatchIndexes` return a
query-index error with `indexMissing` set instead of continuing.  The
final conjunct grounds `checkIndexesActive ... = .ok true` as "every
watched name is present and the index found for it is online". -/
theorem WatchIndexes_C4 (hasContext : Bool) (timeoutNs : Nat)
    (watchPrimary : Bool) (watchList : List String)
    (polls : List (Except GocbError (List QueryIndex)))
    (hargs : ¬(hasContext = false ∧ timeoutNs = 0)) :
    (WatchIndexes hasContext timeoutNs watchPrimary watchList polls = .ok ()
      ↔ ∃ pre p post, polls = pre ++ p :: post ∧
          (∀ q ∈ pre,
            pollContinues (effectiveWatchList watchPrimary watchList) q) ∧
          pollAllOnline (effectiveWatchList watchPrimary watchList) p) ∧
    (∀ pre p post, polls = pre ++ p :: post →
      (∀ q ∈ pre,
        pollContinues (effectiveWatchList watchPrimary watchList) q) →
      pollMissingIndex (effectiveWatchList watchPrimary watchList) p →
      WatchIndexes hasContext timeoutNs watchPrimary watchList polls
        = .error (.queryIndexError "the index specified does not exist"
            0 true)) ∧
    (∀ idxs, checkIndexesActive idxs
        (effectiveWatchList watchPrimary watchList) = .ok true
      ↔ ∀ n ∈ effectiveWatchList watchPrimary watchList, ∃ i,
          idxs.find? (fun x => x.name == n) = some i ∧
          i.state = "online") := by
  refine ⟨?_, ?_, ?_⟩
  · simp only [WatchIndexes, if_neg hargs]
    exact watchLoop_ok_iff polls (effectiveWatchList watchPrimary watchList)
  · intro pre p post heq hpre hmiss
    simp only [WatchIndexes, if_neg hargs, heq]
    exact watchLoop_missing _ pre p post hpre hmiss
  · intro idxs
    exact checkIndexesActive_ok_true_iff idxs _

/-- A concrete online secondary index used by the C4 witness. -/
def sampleOnlineIndex : QueryIndex :=
  { name := "a", isPrimary := false, indexType := "gsi", state := "online",
    keyspace := "b", namespaceId := "default", indexKey := ["f"] }

/-- A concrete online primary index used by the C4 witness. -/
def samplePrimaryIndex : QueryIndex :=
  { name := "#primary", isPrimary := true, indexType := "gsi",
    state := "online", keyspace := "b", namespaceId := "default",
    indexKey := [] }

/-- C4 witness: with a context supplied, watching `["a"]` plus the
primary, the single poll that returns both indexes online makes
`WatchIndexes` return nil. -/
theorem WatchIndexes_C4_witness :
    WatchIndexes true 0 true ["a"]
      [.ok [sampleOnlineIndex, samplePrimaryIndex]] = .ok () := by
  refine (WatchIndexes_C4 true 0 true ["a"]
    [.ok [sampleOnlineIndex, samplePrimaryIndex]] (by simp)).1.mpr
    ⟨[], .ok [sampleOnlineIndex, samplePrimaryIndex], [], rfl, by simp, ?_⟩
  exact ⟨[sampleOnlineIndex, samplePrimaryIndex], rfl, by rfl⟩

lemma Values.get?_set_self (vs : Values) (k v : String) :
    (Values.set vs k v).get? k = some v := by
  induction vs with
  | nil => simp [Values.set, Values.del, Values.get?]
  | cons a t ih =>
    by_cases h : a.1 = k <;>
      simp_all [Values.set, Values.del, Values.get?, List.filter_cons,
        List.find?]

lemma Values.get?_set_ne (vs : Values) (k v k' : String) (h : k' ≠ k) :
    (Values.set vs k v).get? k' = vs.get? k' := by
  simp only [Values.set, Values.del, Values.get?]
  induction vs with
  | nil =>
    rw [List.filter_nil, List.nil_append,
      List.find?_cons_of_neg _ (by simpa using Ne.symm h), List.find?_nil]
  | cons a t ih =>
    by_cases ha : a.1 = k
    · rw [List.filter_cons_of_neg (by simp [ha]),
        List.find?_cons_of_neg _ (by simp [ha, Ne.symm h])]
      exact ih
    · rw [List.filter_cons_of_pos (by simpa using ha), List.cons_append]
      by_cases ha2 : a.1 = k'
      · rw [List.find?_cons_of_pos _ (by simpa using ha2),
          List.find?_cons_of_pos _ (by simpa using ha2)]
      · rw [List.find?_cons_of_neg _ (by simpa using ha2),
          List.find?_cons_of_neg _ (by simpa using ha2)]
        exact ih

lemma Values.get?_del_ne (vs : Values) (k k' : String) (h : k' ≠ k) :
    (Values.del vs k).get? k' = vs.get? k' := by
  simp only [Values.del, Values.get?]
  induction vs with
  | nil => rfl
  | cons a t ih =>
    by_cases ha : a.1 = k
    · rw [List.filter_cons_of_neg (by simp [ha]),
        List.find?_cons_of_neg _ (by simp [ha, Ne.symm h])]
      exact ih
    · rw [List.filter_cons_of_pos (by simpa using ha)]
      by_cases ha2 : a.1 = k'
      · rw [List.find?_cons_of_pos _ (by simpa using ha2),
          List.find?_cons_of_pos _ (by simpa using ha2)]
      · rw [List.find?_cons_of_neg _ (by simpa using ha2),
          List.find?_cons_of_neg _ (by simpa using ha2)]
        exact ih

lemma Values.get?_del_self (vs : Values) (k : String) :
    (Values.del vs k).get? k = none := by
  simp only [Values.del, Values.get?]
  induction vs with
  | nil => rfl
  | cons a t ih =>
    by_cases ha : a.1 = k
    · rw [List.filter_cons_of_neg (by simp [ha])]
      exact ih
    · rw [List.filter_cons_of_pos (by simpa using ha),
        List.find?_cons_of_neg _ (by simpa using ha)]
      exact ih

/-- `ViewScanConsistencyNotBounded` (the `ViewScanConsistency` ints). -/
def ViewScanConsistencyNotBounded : Nat := 1

/-- `ViewScanConsistencyRequestPlus`. -/
def ViewScanConsistencyRequestPlus : Nat := 2

/-- `ViewScanConsistencyUpdateAfter`. -/
def ViewScanConsistencyUpdateAfter : Nat := 3

/-- `ViewOrderingAscending` (the `ViewOrdering` ints). -/
def ViewOrderingAscending : Nat := 1

/-- `ViewOrderingDescending`. -/
def ViewOrderingDescending : Nat := 2

/-- `ViewErrorModeContinue` (the `ViewErrorMode` ints). -/
def ViewErrorModeContinue : Nat := 1

/-- `ViewErrorModeStop`. -/
def ViewErrorModeStop : Nat := 2

/-- `ViewOptions`, restricted to the fields `toURLValues` reads.
Omitted: `Namespace` (not read by `toURLValues`), `Context`/`Timeout`
(cancellation), `Serializer` and `RetryStrategy` (request execution).
A nil `Raw` map is the empty list; map iteration order is irrelevant here
because `Set` is keyed. -/
structure ViewOptions where
  scanConsistency : Nat
  skip : Nat
  limit : Nat
  order : Nat
  reduce : Bool
  group : Bool
  groupLevel : Nat
  key : Option GoValue
  keys : List GoValue
  startKey : Option GoValue
  endKey : Option GoValue
  inclusiveEnd : Bool
  startKeyDocID : String
  endKeyDocID : String
  raw : List (String × String)
  onError : Nat
  debug : Bool
  deriving DecidableEq, Repr

/-- `(*ViewOptions).marshalJson` on a single value: `json.Encoder.Encode`
emits the value's JSON text followed by a newline, or fails on an
unencodable value. -/
def ViewOptions.marshalJson (value : GoValue) : Except GocbError String :=
  match value with
  | .unencodable => .error (.goError "json: unsupported type")
  | .jsonValue s => .ok (s ++ "\n")
  | .intVal i => .ok (toString i ++ "\n")
  | .mutMacro m => .ok (m ++ "\n")

/-- The JSON text a `GoValue` encodes to (used for the `Keys` array). -/
def goValueJsonText : GoValue → String
  | .jsonValue s => s
  | .intVal i => toString i
  | .mutMacro m => m
  | .unencodable => ""

/-- `(*ViewOptions).marshalJson` on the `Keys` slice: the JSON array of
the elements plus the encoder's newline, failing if any element is
unencodable. -/
def marshalJsonKeys (vs : List GoValue) : Except GocbError String :=
  if vs.contains .unencodable then .error (.goError "json: unsupported type")
  else .ok ("[" ++ String.intercalate "," (vs.map goValueJsonText) ++ "]\n")

/-- The `ScanConsistency` block of `toURLValues`. -/
def staleStage (opts : ViewOptions) (options : Values) :
    Except GocbError Values :=
  if opts.scanConsistency ≠ 0 then
    if opts.scanConsistency = ViewScanConsistencyRequestPlus then
      .ok (options.set "stale" "false")
    else if opts.scanConsistency = ViewScanConsistencyNotBounded then
      .ok (options.set "stale" "ok")
    else if opts.scanConsistency = ViewScanConsistencyUpdateAfter then
      .ok (options.set "stale" "update_after")
    else .error (.invalidArgumentsError "unexpected stale option")
  else .ok options

/-- The `Skip` block of `toURLValues` (`strconv.FormatUint` base 10). -/
def skipStage (opts : ViewOptions) (options : Values) : Values :=
  if opts.skip ≠ 0 then options.set "skip" (toString opts.skip) else options

/-- The `Limit` block of `toURLValues`. -/
def limitStage (opts : ViewOptions) (options : Values) : Values :=
  if opts.limit ≠ 0 then options.set "limit" (toString opts.limit)
  else options

/-- The `Order` block of `toURLValues`. -/
def orderStage (opts : ViewOptions) (options : Values) :
    Except GocbError Values :=
  if opts.order ≠ 0 then
    if opts.order = ViewOrderingAscending then
      .ok (options.set "descending" "false")
    else if opts.order = ViewOrderingDescending then
      .ok (options.set "descending" "true")
    else .error (.invalidArgumentsError "unexpected order option")
  else .ok options

/-- The `Reduce`/`Group`/`GroupLevel` block of `toURLValues`: `reduce` is
always set (first to `"false"`, overridden to `"true"` when `Reduce`), and
`group`/`group_level` are only touched inside the `Reduce` branch. -/
def reduceStage (opts : ViewOptions) (options : Values) : Values :=
  let options := options.set "reduce" "false"
  if opts.reduce then
    let options := options.set "reduce" "true"
    let options := options.set "group" "false"
    let options := if opts.group then options.set "group" "true"
      else options
    let options := if opts.groupLevel ≠ 0 then
      options.set "group_level" (toString opts.groupLevel) else options
    options
  else options

/-- The `Key` block of `toURLValues`. -/
def keyStage (opts : ViewOptions) (options : Values) :
    Except GocbError Values :=
  match opts.key with
  | none => .ok options
  | some v => (ViewOptions.marshalJson v).map
      (fun jsonKey => options.set "key" jsonKey)

/-- The `Keys` block of `toURLValues` (`len(opts.Keys) > 0`). -/
def keysStage (opts : ViewOptions) (options : Values) :
    Except GocbError Values :=
  if opts.keys.length > 0 then
    (marshalJsonKeys opts.keys).map
      (fun jsonKeys => options.set "keys" jsonKeys)
  else .ok options

/-- The `StartKey` block of `toURLValues` (`Del` on the nil branch). -/
def startKeyStage (opts : ViewOptions) (options : Values) :
    Except GocbError Values :=
  match opts.startKey with
  | some v => (ViewOptions.marshalJson v).map
      (fun jsonStartKey => options.set "startkey" jsonStartKey)
  | none => .ok (options.del "startkey")

/-- The `EndKey` block of `toURLValues`. -/
def endKeyStage (opts : ViewOptions) (options : Values) :
    Except GocbError Values :=
  match opts.endKey with
  | some v => (ViewOptions.marshalJson v).map
      (fun jsonEndKey => options.set "endkey" jsonEndKey)
  | none => .ok (options.del "endkey")

/-- The `InclusiveEnd` block of `toURLValues` (only when a start or end
key is present). -/
def inclusiveEndStage (opts : ViewOptions) (options : Values) : Values :=
  if opts.startKey ≠ none ∨ opts.endKey ≠ none then
    if opts.inclusiveEnd then options.set "inclusive_end" "true"
    else options.set "inclusive_end" "false"
  else options

/-- The `StartKeyDocID` block of `toURLValues`. -/
def startKeyDocIDStage (opts : ViewOptions) (options : Values) : Values :=
  if opts.startKeyDocID = "" then options.del "startkey_docid"
  else options.set "startkey_docid" opts.startKeyDocID

/-- The `EndKeyDocID` block of `toURLValues`. -/
def endKeyDocIDStage (opts : ViewOptions) (options : Values) : Values :=
  if opts.endKeyDocID = "" then options.del "endkey_docid"
  else options.set "endkey_docid" opts.endKeyDocID

/-- The `OnError` block of `toURLValues`. -/
def onErrorStage (opts : ViewOptions) (options : Values) :
    Except GocbError Values :=
  if opts.onError > 0 then
    if opts.onError = ViewErrorModeContinue then
      .ok (options.set "on_error" "continue")
    else if opts.onError = ViewErrorModeStop then
      .ok (options.set "on_error" "stop")
    else .error (.invalidArgumentsError "unexpected onerror option")
  else .ok options

/-- The `Debug` block of `toURLValues`. -/
def debugStage (opts : ViewOptions) (options : Values) : Values :=
  if opts.debug then options.set "debug" "true" else options

/-- The `Raw` block of `toURLValues`: `options.Set(k, v)` for each entry
of the map. -/
def rawStage (opts : ViewOptions) (options : Values) : Values :=
  opts.raw.foldl (fun acc kv => acc.set kv.1 kv.2) options

/-- `(*ViewOptions).toURLValues`: the source's single function, written as
the composition of its blocks in source order, starting from the empty
`url.Values`. -/
def ViewOptions.toURLValues (opts : ViewOptions) :
    Except GocbError Values := do
  let options : Values := []
  let options ← staleStage opts options
  let options := skipStage opts options
  let options := limitStage opts options
  let options ← orderStage opts options
  let options := reduceStage opts options
  let options ← keyStage opts options
  let options ← keysStage opts options
  let options ← startKeyStage opts options
  let options ← endKeyStage opts options
  let options := inclusiveEndStage opts options
  let options := startKeyDocIDStage opts options
  let options := endKeyDocIDStage opts options
  let options ← onErrorStage opts options
  let options := debugStage opts options
  let options := rawStage opts options
  pure options

lemma except_bind_ok {ε α β : Type} (x : Except ε α) (f : α → Except ε β)
    (b : β) :
    (x >>= f) = .ok b ↔ ∃ a, x = .ok a ∧ f a = .ok b := by
  cases x <;> simp [Bind.bind, Except.bind]

lemma skipStage_preserves (opts : ViewOptions) (options : Values)
    (k : String) (hk : k ≠ "skip") :
    (skipStage opts options).get? k = options.get? k := by
  unfold skipStage
  split
  · exact Values.get?_set_ne _ _ _ _ hk
  · rfl

lemma limitStage_preserves (opts : ViewOptions) (options : Values)
    (k : String) (hk : k ≠ "limit") :
    (limitStage opts options).get? k = options.get? k := by
  unfold limitStage
  split
  · exact Values.get?_set_ne _ _ _ _ hk
  · rfl

lemma inclusiveEndStage_preserves (opts : ViewOptions) (options : Values)
    (k : String) (hk : k ≠ "inclusive_end") :
    (inclusiveEndStage opts options).get? k = options.get? k := by
  unfold inclusiveEndStage
  split_ifs <;>
    first
      | exact Values.get?_set_ne _ _ _ _ hk
      | rfl

lemma startKeyDocIDStage_preserves (opts : ViewOptions) (options : Values)
    (k : String) (hk : k ≠ "startkey_docid") :
    (startKeyDocIDStage opts options).get? k = options.get? k := by
  unfold startKeyDocIDStage
  split
  · exact Values.get?_del_ne _ _ _ hk
  · exact Values.get?_set_ne _ _ _ _ hk

lemma endKeyDocIDStage_preserves (opts : ViewOptions) (options : Values)
    (k : String) (hk : k ≠ "endkey_docid") :
    (endKeyDocIDStage opts options).get? k = options.get? k := by
  unfold endKeyDocIDStage
  split
  · exact Values.get?_del_ne _ _ _ hk
  · exact Values.get?_set_ne _ _ _ _ hk

lemma debugStage_preserves (opts : ViewOptions) (options : Values)
    (k : String) (hk : k ≠ "debug") :
    (debugStage opts options).get? k = options.get? k := by
  unfold debugStage
  split
  · exact Values.get?_set_ne _ _ _ _ hk
  · rfl

lemma rawStage_empty (opts : ViewOptions) (options : Values)
    (hraw : opts.raw = []) : rawStage opts options = options := by
  simp [rawStage, hraw]

lemma reduceStage_preserves (opts : ViewOptions) (options : Values)
    (k : String) (hk1 : k ≠ "reduce") (hk2 : k ≠ "group")
    (hk3 : k ≠ "group_level") :
    (reduceStage opts options).get? k = options.get? k := by
  simp only [reduceStage]
  split_ifs <;>
    (repeat' first
      | rw [Values.get?_set_ne _ _ _ _ hk1]
      | rw [Values.get?_set_ne _ _ _ _ hk2]
      | rw [Values.get?_set_ne _ _ _ _ hk3])

lemma staleStage_preserves (opts : ViewOptions) (options vs : Values)
    (k : String) (hk : k ≠ "stale")
    (h : staleStage opts options = .ok vs) :
    vs.get? k = options.get? k := by
  simp only [staleStage] at h
  split_ifs at h <;>
    first
      | (cases h; exact Values.get?_set_ne _ _ _ _ hk)
      | (cases h; rfl)

lemma orderStage_preserves (opts : ViewOptions) (options vs : Values)
    (k : String) (hk : k ≠ "descending")
    (h : orderStage opts options = .ok vs) :
    vs.get? k = options.get? k := by
  simp only [orderStage] at h
  split_ifs at h <;>
    first
      | (cases h; exact Values.get?_set_ne _ _ _ _ hk)
      | (cases h; rfl)

lemma onErrorStage_preserves (opts : ViewOptions) (options vs : Values)
    (k : String) (hk : k ≠ "on_error")
    (h : onErrorStage opts options = .ok vs) :
    vs.get? k = options.get? k := by
  simp only [onErrorStage] at h
  split_ifs at h <;>
    first
      | (cases h; exact Values.get?_set_ne _ _ _ _ hk)
      | (cases h; rfl)

lemma keyStage_preserves (opts : ViewOptions) (options vs : Values)
    (k : String) (hk : k ≠ "key")
    (h : keyStage opts options = .ok vs) :
    vs.get? k = options.get? k := by
  unfold keyStage at h
  split at h
  · cases h
    rfl
  · rename_i v heq
    cases hm : ViewOptions.marshalJson v with
    | error e => rw [hm] at h; simp [Except.map] at h
    | ok s =>
      rw [hm] at h
      simp only [Except.map, Except.ok.injEq] at h
      subst h
      exact Values.get?_set_ne _ _ _ _ hk

lemma keysStage_preserves (opts : ViewOptions) (options vs : Values)
    (k : String) (hk : k ≠ "keys")
    (h : keysStage opts options = .ok vs) :
    vs.get? k = options.get? k := by
  unfold keysStage at h
  split_ifs at h
  · cases hm : marshalJsonKeys opts.keys with
    | error e => rw [hm] at h; simp [Except.map] at h
    | ok s =>
      rw [hm] at h
      simp only [Except.map, Except.ok.injEq] at h
      subst h
      exact Values.get?_set_ne _ _ _ _ hk
  · cases h
    rfl

lemma startKeyStage_preserves (opts : ViewOptions) (options vs : Values)
    (k : String) (hk : k ≠ "startkey")
    (h : startKeyStage opts options = .ok vs) :
    vs.get? k = options.get? k := by
  unfold startKeyStage at h
  split at h
  · rename_i v heq
    cases hm : ViewOptions.marshalJson v with
    | error e => rw [hm] at h; simp [Except.map] at h
    | ok s =>
      rw [hm] at h
      simp only [Except.map, Except.ok.injEq] at h
      subst h
      exact Values.get?_set_ne _ _ _ _ hk
  · cases h
    exact Values.get?_del_ne _ _ _ hk

lemma endKeyStage_preserves (opts : ViewOptions) (options vs : Values)
    (k : String) (hk : k ≠ "endkey")
    (h : endKeyStage opts options = .ok vs) :
    vs.get? k = options.get? k := by
  unfold endKeyStage at h
  split at h
  · rename_i v heq
    cases hm : ViewOptions.marshalJson v with
    | error e => rw [hm] at h; simp [Except.map] at h
    | ok s =>
      rw [hm] at h
      simp only [Except.map, Except.ok.injEq] at h
      subst h
      exact Values.get?_set_ne _ _ _ _ hk
  · cases h
    exact Values.get?_del_ne _ _ _ hk

lemma toURLValues_ok_decompose (opts : ViewOptions) (vs : Values)
    (hraw : opts.raw = [])
    (h : ViewOptions.toURLValues opts = .ok vs) :
    ∃ o1 o2, staleStage opts [] = .ok o1 ∧
      orderStage opts (limitStage opts (skipStage opts o1)) = .ok o2 ∧
      ∀ k, k ≠ "key" → k ≠ "keys" → k ≠ "startkey" → k ≠ "endkey" →
        k ≠ "inclusive_end" → k ≠ "startkey_docid" → k ≠ "endkey_docid" →
        k ≠ "on_error" → k ≠ "debug" →
        vs.get? k = (reduceStage opts o2).get? k := by
  simp only [ViewOptions.toURLValues] at h
  rcases (except_bind_ok _ _ _).mp h with ⟨o1, h1, h⟩
  rcases (except_bind_ok _ _ _).mp h with ⟨o2, h2, h⟩
  rcases (except_bind_ok _ _ _).mp h with ⟨o3, h3, h⟩
  rcases (except_bind_ok _ _ _).mp h with ⟨o4, h4, h⟩
  rcases (except_bind_ok _ _ _).mp h with ⟨o5, h5, h⟩
  rcases (except_bind_ok _ _ _).mp h with ⟨o6, h6, h⟩
  rcases (except_bind_ok _ _ _).mp h with ⟨o7, h7, h⟩
  simp only [pure, Except.pure, Except.ok.injEq] at h
  refine ⟨o1, o2, h1, h2, ?_⟩
  intro k hk1 hk2 hk3 hk4 hk5 hk6 hk7 hk8 hk9
  rw [← h, rawStage_empty _ _ hraw, debugStage_preserves _ _ _ hk9,
    onErrorStage_preserves _ _ _ _ hk8 h7,
    endKeyDocIDStage_preserves _ _ _ hk7,
    startKeyDocIDStage_preserves _ _ _ hk6,
    inclusiveEndStage_preserves _ _ _ hk5,
    endKeyStage_preserves _ _ _ _ hk4 h6,
    startKeyStage_preserves _ _ _ _ hk3 h5,
    keysStage_preserves _ _ _ _ hk2 h4,
    keyStage_preserves _ _ _ _ hk1 h3]

lemma staleStage_eval (opts : ViewOptions) (options : Values) :
    (opts.scanConsistency = 0 → staleStage opts options = .ok options) ∧
    (opts.scanConsistency = ViewScanConsistencyRequestPlus →
      staleStage opts options = .ok (options.set "stale" "false")) ∧
    (opts.scanConsistency = ViewScanConsistencyNotBounded →
      staleStage opts options = .ok (options.set "stale" "ok")) ∧
    (opts.scanConsistency = ViewScanConsistencyUpdateAfter →
      staleStage opts options = .ok (options.set "stale" "update_after")) ∧
    (opts.scanConsistency ≠ 0 →
      opts.scanConsistency ≠ ViewScanConsistencyRequestPlus →
      opts.scanConsistency ≠ ViewScanConsistencyNotBounded →
      opts.scanConsistency ≠ ViewScanConsistencyUpdateAfter →
      staleStage opts options
        = .error (.invalidArgumentsError "unexpected stale option")) := by
  refine ⟨fun h => ?_, fun h => ?_, fun h => ?_, fun h => ?_,
    fun h1 h2 h3 h4 => ?_⟩
  · simp [staleStage, h]
  · simp [staleStage, h, ViewScanConsistencyRequestPlus]
  · simp [staleStage, h, ViewScanConsistencyRequestPlus,
      ViewScanConsistencyNotBounded]
  · simp [staleStage, h, ViewScanConsistencyRequestPlus,
      ViewScanConsistencyNotBounded, ViewScanConsistencyUpdateAfter]
  · simp [staleStage, h1, h2, h3, h4]

lemma reduceStage_eval (opts : ViewOptions) (options : Values) :
    ((reduceStage opts options).get? "reduce"
      = some (if opts.reduce then "true" else "false")) ∧
    (opts.reduce = false →
      (reduceStage opts options).get? "group" = options.get? "group" ∧
      (reduceStage opts options).get? "group_level"
        = options.get? "group_level") ∧
    (opts.reduce = true →
      ((reduceStage opts options).get? "group"
        = some (if opts.group then "true" else "false")) ∧
      (opts.groupLevel ≠ 0 →
        (reduceStage opts options).get? "group_level"
          = some (toString opts.groupLevel)) ∧
      (opts.groupLevel = 0 →
        (reduceStage opts options).get? "group_level"
          = options.get? "group_level")) := by
  cases hr : opts.reduce with
  | false =>
    simp only [reduceStage, hr, Bool.false_eq_true, if_false]
    refine ⟨?_, fun _ => ⟨?_, ?_⟩, fun hc => absurd hc (by simp)⟩
    · rw [Values.get?_set_self]
    · rw [Values.get?_set_ne _ _ _ _ (by decide)]
    · rw [Values.get?_set_ne _ _ _ _ (by decide)]
  | true =>
    simp only [reduceStage, hr, if_true]
    refine ⟨?_, fun hc => absurd hc (by simp), fun _ => ⟨?_, fun hgl => ?_,
      fun hgl => ?_⟩⟩
    · split_ifs <;>
        (repeat' first
          | rw [Values.get?_set_self]
          | rw [Values.get?_set_ne _ _ _ _
              (by decide : ("reduce" : String) ≠ "group_level")]
          | rw [Values.get?_set_ne _ _ _ _
              (by decide : ("reduce" : String) ≠ "group")])
    · by_cases hg : opts.group = true
      · simp only [if_pos hg]
        split_ifs with hgl
        · rw [Values.get?_set_ne _ _ _ _
            (by decide : ("group" : String) ≠ "group_level"),
            Values.get?_set_self]
        · rw [Values.get?_set_self]
      · simp only [if_neg hg]
        split_ifs with hgl
        · rw [Values.get?_set_ne _ _ _ _
            (by decide : ("group" : String) ≠ "group_level"),
            Values.get?_set_self]
        · rw [Values.get?_set_self]
    · rw [if_pos hgl, Values.get?_set_self]
    · rw [if_neg (by simp [hgl])]
      split_ifs with hg <;>
        (repeat' first
          | rw [Values.get?_set_ne _ _ _ _
              (by decide : ("group_level" : String) ≠ "group")]
          | rw [Values.get?_set_ne _ _ _ _
              (by decide : ("group_level" : String) ≠ "reduce")])

/-- C5 (amended: for options whose `Raw` map is empty — entries of `Raw`
are `Set` last and can override or reintroduce `stale`): on success the
`stale` parameter is `"false"`/`"ok"`/`"update_after"` for
RequestPlus/NotBounded/UpdateAfter, absent when `ScanConsistency` is zero,
and any other non-zero `ScanConsistency` yields an invalid-arguments error
with no values. -/
theorem viewOptions_stale_C5_amended (opts : ViewOptions)
    (hraw : opts.raw = []) :
    (∀ vs, ViewOptions.toURLValues opts = .ok vs →
      (opts.scanConsistency = ViewScanConsistencyRequestPlus →
        vs.get? "stale" = some "false") ∧
      (opts.scanConsistency = ViewScanConsistencyNotBounded →
        vs.get? "stale" = some "ok") ∧
      (opts.scanConsistency = ViewScanConsistencyUpdateAfter →
        vs.get? "stale" = some "update_after") ∧
      (opts.scanConsistency = 0 → vs.get? "stale" = none)) ∧
    (opts.scanConsistency ≠ 0 →
      opts.scanConsistency ≠ ViewScanConsistencyRequestPlus →
      opts.scanConsistency ≠ ViewScanConsistencyNotBounded →
      opts.scanConsistency ≠ ViewScanConsistencyUpdateAfter →
      ViewOptions.toURLValues opts
        = .error (.invalidArgumentsError "unexpected stale option")) := by
  constructor
  · intro vs h
    obtain ⟨o1, o2, h1, h2, hget⟩ := toURLValues_ok_decompose opts vs hraw h
    have hchain : vs.get? "stale" = o1.get? "stale" := by
      rw [hget "stale" (by decide) (by decide) (by decide) (by decide)
          (by decide) (by decide) (by decide) (by decide) (by decide),
        reduceStage_preserves _ _ _ (by decide) (by decide) (by decide),
        orderStage_preserves _ _ _ _ (by decide) h2,
        limitStage_preserves _ _ _ (by decide),
        skipStage_preserves _ _ _ (by decide)]
    refine ⟨fun hsc => ?_, fun hsc => ?_, fun hsc => ?_, fun hsc => ?_⟩
    · rw [(staleStage_eval opts []).2.1 hsc] at h1
      cases h1
      rw [hchain, Values.get?_set_self]
    · rw [(staleStage_eval opts []).2.2.1 hsc] at h1
      cases h1
      rw [hchain, Values.get?_set_self]
    · rw [(staleStage_eval opts []).2.2.2.1 hsc] at h1
      cases h1
      rw [hchain, Values.get?_set_self]
    · rw [(staleStage_eval opts []).1 hsc] at h1
      cases h1
      rw [hchain]
      rfl
  · intro h1 h2 h3 h4
    have he := (staleStage_eval opts []).2.2.2.2 h1 h2 h3 h4
    simp only [ViewOptions.toURLValues]
    rw [he]
    rfl

/-- The zero value of `ViewOptions` (every field at its Go zero value). -/
def baseViewOptions : ViewOptions :=
  { scanConsistency := 0, skip := 0, limit := 0, order := 0,
    reduce := false, group := false, groupLevel := 0, key := none,
    keys := [], startKey := none, endKey := none, inclusiveEnd := false,
    startKeyDocID := "", endKeyDocID := "", raw := [], onError := 0,
    debug := false }

/-- Options with zero `ScanConsistency` but a `Raw` entry for `stale`. -/
def viewOptsRawStale : ViewOptions :=
  { baseViewOptions with raw := [("stale", "ok")] }

/-- C5 counterexample: with `ScanConsistency` zero but
`Raw = {"stale": "ok"}`, `toURLValues` succeeds with a `stale` parameter
present, refuting the claim's "when ScanConsistency is zero the stale
parameter is absent" as stated for every `ViewOptions` value. -/
theorem viewOptions_stale_C5_cex :
    viewOptsRawStale.scanConsistency = 0 ∧
    (ViewOptions.toURLValues viewOptsRawStale).map
      (fun vs => Values.get? vs "stale") = .ok (some "ok") :=
  ⟨rfl, rfl⟩

/-- Options selecting RequestPlus consistency, with empty `Raw`. -/
def viewOptsRequestPlus : ViewOptions :=
  { baseViewOptions with scanConsistency := ViewScanConsistencyRequestPlus }

/-- C5 witness: the amended theorem applied at RequestPlus options gives
`stale = "false"`. -/
theorem viewOptions_stale_C5_witness :
    (ViewOptions.toURLValues viewOptsRequestPlus).map
      (fun vs => Values.get? vs "stale") = .ok (some "false") := by
  obtain ⟨V, hV⟩ :
      ∃ V, ViewOptions.toURLValues viewOptsRequestPlus = .ok V := ⟨_, rfl⟩
  have H := ((viewOptions_stale_C5_amended viewOptsRequestPlus rfl).1
    V hV).1 rfl
  rw [hV]
  simp only [Except.map]
  rw [H]

/-- C6 (amended: for options whose `Raw` map is empty — entries of `Raw`
are `Set` last and can override `reduce` or reintroduce `group`): every
successful encoding contains `reduce` with value `"true"` iff
`opts.Reduce` (else `"false"`), contains `group`/`group_level` only when
`opts.Reduce` is true, and then `group` is `"true"` iff `opts.Group` and
`group_level` is present iff `opts.GroupLevel` is non-zero. -/
theorem viewOptions_reduce_C6_amended (opts : ViewOptions)
    (hraw : opts.raw = []) (vs : Values)
    (h : ViewOptions.toURLValues opts = .ok vs) :
    vs.get? "reduce" = some (if opts.reduce then "true" else "false") ∧
    (opts.reduce = false →
      vs.get? "group" = none ∧ vs.get? "group_level" = none) ∧
    (opts.reduce = true →
      vs.get? "group" = some (if opts.group then "true" else "false") ∧
      (opts.groupLevel ≠ 0 →
        vs.get? "group_level" = some (toString opts.groupLevel)) ∧
      (opts.groupLevel = 0 → vs.get? "group_level" = none)) := by
  obtain ⟨o1, o2, h1, h2, hget⟩ := toURLValues_ok_decompose opts vs hraw h
  have hR := hget "reduce" (by decide) (by decide) (by decide) (by decide)
    (by decide) (by decide) (by decide) (by decide) (by decide)
  have hG := hget "group" (by decide) (by decide) (by decide) (by decide)
    (by decide) (by decide) (by decide) (by decide) (by decide)
  have hGL := hget "group_level" (by decide) (by decide) (by decide)
    (by decide) (by decide) (by decide) (by decide) (by decide) (by decide)
  have E := reduceStage_eval opts o2
  have hg2 : o2.get? "group" = none := by
    rw [orderStage_preserves _ _ _ _ (by decide) h2,
      limitStage_preserves _ _ _ (by decide),
      skipStage_preserves _ _ _ (by decide),
      staleStage_preserves _ _ _ _ (by decide) h1]
    rfl
  have hgl2 : o2.get? "group_level" = none := by
    rw [orderStage_preserves _ _ _ _ (by decide) h2,
      limitStage_preserves _ _ _ (by decide),
      skipStage_preserves _ _ _ (by decide),
      staleStage_preserves _ _ _ _ (by decide) h1]
    rfl
  refine ⟨?_, fun hrf => ⟨?_, ?_⟩, fun hrt => ⟨?_, fun hgl => ?_,
    fun hgl => ?_⟩⟩
  · rw [hR]
    exact E.1
  · rw [hG, (E.2.1 hrf).1, hg2]
  · rw [hGL, (E.2.1 hrf).2, hgl2]
  · rw [hG]
    exact (E.2.2 hrt).1
  · rw [hGL]
    exact (E.2.2 hrt).2.1 hgl
  · rw [hGL, (E.2.2 hrt).2.2 hgl, hgl2]

/-- Options with `Reduce` false but a `Raw` entry for `group`. -/
def viewOptsRawGroup : ViewOptions :=
  { baseViewOptions with raw := [("group", "true")] }

/-- C6 counterexample: with `Reduce` false but `Raw = {"group": "true"}`,
the encoding contains a `group` parameter, refuting the claim's "contains
group ... only when opts.Reduce is true" as stated for every `ViewOptions`
value on which `toURLValues` succeeds. -/
theorem viewOptions_reduce_C6_cex :
    viewOptsRawGroup.reduce = false ∧
    (ViewOptions.toURLValues viewOptsRawGroup).map
      (fun vs => Values.get? vs "group") = .ok (some "true") :=
  ⟨rfl, rfl⟩

/-- Options with `Reduce`, `Group` and a non-zero `GroupLevel`. -/
def viewOptsReduceGroup : ViewOptions :=
  { baseViewOptions with reduce := true, group := true, groupLevel := 2 }

/-- C6 witness: the amended theorem applied at reduce+group options gives
`reduce = "true"`, `group = "true"`, `group_level = "2"`. -/
theorem viewOptions_reduce_C6_witness :
    (ViewOptions.toURLValues viewOptsReduceGroup).map
      (fun vs => (Values.get? vs "reduce", Values.get? vs "group",
        Values.get? vs "group_level"))
      = .ok (some "true", some "true", some "2") := by
  obtain ⟨V, hV⟩ :
      ∃ V, ViewOptions.toURLValues viewOptsReduceGroup = .ok V := ⟨_, rfl⟩
  have H := viewOptions_reduce_C6_amended viewOptsReduceGroup rfl V hV
  rw [hV]
  simp only [Except.map]
  rw [H.1, (H.2.2 rfl).1, (H.2.2 rfl).2.1 (by decide)]
  rfl
